import Mathlib

/-!
Verification of the publish-next-function action (src/src/index.js and the
revised index.js in src/unnamed/part_001) against its natural-language
specification. The JavaScript is shallowly embedded: each az-CLI invocation is
an external event whose result is supplied by a `World` record, and the
sequential try/catch control flow of the source becomes explicit
match-chaining on `Except` values, accumulating the trace of executed steps.
-/

namespace PublishNext

/-! ## Upload retry loop (deploy, src/unnamed/part_001 lines 339-362)

The loop `for (let attempt = 1; attempt <= maxAttempts; ++attempt)` around
`az functionapp deployment source config-zip`.  `w attempt = true` means the
upload command succeeds on that attempt.  The result records the sequence of
attempts and 5000 ms waits actually performed, plus the final outcome. -/

inductive DeployEv where
  | attempt (n : Nat)
  | wait (ms : Nat)
deriving DecidableEq, Repr

inductive UploadOutcome where
  | success
  | failure (message : String)
deriving DecidableEq, Repr

def uploadFailureMessage : String := "Could not deploy package to Azure function app"

/-- One iteration of the retry loop: `remaining` is the number of loop
iterations still permitted (`maxAttempts + 1 - attempt` in the source), so
`remaining = 0` corresponds to the loop guard `attempt <= maxAttempts`
failing.  The body mirrors lines 342-362: on success log and `break`; on
failure, if `attempt + 1 <= maxAttempts` (i.e. another iteration remains)
wait 5000 ms and retry, otherwise throw. -/
def uploadLoop (w : Nat → Bool) : Nat → Nat → List DeployEv × UploadOutcome
  | _, 0 => ([], .success)
  | attempt, remaining + 1 =>
    if w attempt then
      ([DeployEv.attempt attempt], .success)
    else if 0 < remaining then
      let r := uploadLoop w (attempt + 1) remaining
      (DeployEv.attempt attempt :: DeployEv.wait 5000 :: r.1, r.2)
    else
      ([DeployEv.attempt attempt], .failure uploadFailureMessage)

def maxAttempts : Nat := 3

/-- The full upload step: `attempt` starts at 1, `maxAttempts = 3`. -/
def uploadPackage (w : Nat → Bool) : List DeployEv × UploadOutcome :=
  uploadLoop w 1 maxAttempts

/-! ## Ephemeral (pull-request) naming (loadConfig, lines 95-112) -/

/-- JavaScript `s.substring(0, n)` for `n ≥ 0`: the first `n` characters. -/
def jsSubstring (s : String) (n : Nat) : String := String.mk (s.data.take n)

/-- The character class `[a-zA-Z0-9]` of the regular expression on line 104. -/
def isAlphanumeric (c : Char) : Bool :=
  ('a' ≤ c && c ≤ 'z') || ('A' ≤ c && c ≤ 'Z') || ('0' ≤ c && c ≤ '9')

/-- JavaScript `s.replace(new RegExp("[^a-zA-Z0-9]+$"), "")`: remove the
longest trailing run of non-alphanumeric characters. -/
def stripTrailingNonAlphanumeric (s : String) : String :=
  String.mk ((s.data.reverse.dropWhile (fun c => !isAlphanumeric c)).reverse)

/-- Line 99: `` `-${config.pullRequestId}` ``. -/
def pullRequestSuffix (pullRequestId : Nat) : String :=
  "-" ++ Nat.repr pullRequestId

/-- Lines 100-104: the base name truncated to `60 - suffix.length` characters
with trailing non-alphanumeric characters removed. -/
def trimmedName (name : String) (pullRequestId : Nat) : String :=
  stripTrailingNonAlphanumeric
    (jsSubstring name (60 - (pullRequestSuffix pullRequestId).length))

/-- Line 105: `` config.name = `${trimmedName}-${config.pullRequestId}` ``. -/
def adjustedName (name : String) (pullRequestId : Nat) : String :=
  trimmedName name pullRequestId ++ "-" ++ Nat.repr pullRequestId

/-- Line 108: `` config.storageAccount = `pr${config.storageAccount}`.substring(0, 24) ``. -/
def adjustedStorageAccount (storageAccount : String) : String :=
  jsSubstring ("pr" ++ storageAccount) 24

/-- Line 111: `` config.assetsContainerName = `${config.assetsContainerName}-${config.pullRequestId}` ``. -/
def adjustedContainerName (assetsContainerName : String) (pullRequestId : Nat) : String :=
  assetsContainerName ++ "-" ++ Nat.repr pullRequestId

/-! ### Helper lemmas for C2 -/

theorem length_jsSubstring_le (s : String) (n : Nat) : (jsSubstring s n).length ≤ n := by
  simp only [jsSubstring, String.length]
  exact (List.length_take n s.data) ▸ Nat.min_le_left _ _

theorem length_stripTrailing_le (s : String) :
    (stripTrailingNonAlphanumeric s).length ≤ s.length := by
  simp only [stripTrailingNonAlphanumeric, String.length, List.length_reverse]
  calc (s.data.reverse.dropWhile (fun c => !isAlphanumeric c)).length
      ≤ s.data.reverse.length := (List.dropWhile_sublist _).length_le
    _ = s.data.length := List.length_reverse _

theorem head?_dropWhile_false {p : α → Bool} {l : List α} {a : α}
    (h : (l.dropWhile p).head? = some a) : p a = false := by
  induction l with
  | nil => simp [List.dropWhile] at h
  | cons x xs ih =>
    by_cases hx : p x
    · rw [List.dropWhile_cons_of_pos hx] at h
      exact ih h
    · rw [List.dropWhile_cons_of_neg hx] at h
      simp only [List.head?] at h
      cases h
      exact Bool.eq_false_iff.mpr hx

theorem stripTrailing_last_alphanumeric (s : String) (c : Char)
    (h : (stripTrailingNonAlphanumeric s).data.getLast? = some c) :
    isAlphanumeric c = true := by
  simp only [stripTrailingNonAlphanumeric, List.getLast?_reverse] at h
  have := head?_dropWhile_false h
  simpa using this

/-- Claim C2: in ephemeral/pull-request mode, for every base compute-app name
of at most 80 characters and every change-request id of at most 10 decimal
digits, the derived compute-app name (trimmed base followed by "-id") has at
most 60 characters, the trimmed base never ends in a non-alphanumeric
character, the derived storage-account name "pr" ++ base is truncated to at
most 24 characters, and the derived asset-container name is base ++ "-" ++ id. -/
theorem ephemeral_names_spec (name storageAccount assetsContainerName : String)
    (pullRequestId : Nat)
    (hn : name.length ≤ 80)
    (hid : (Nat.repr pullRequestId).length ≤ 10) :
    (adjustedName name pullRequestId).length ≤ 60 ∧
    (∀ c, (trimmedName name pullRequestId).data.getLast? = some c →
      isAlphanumeric c = true) ∧
    (adjustedStorageAccount storageAccount).length ≤ 24 ∧
    adjustedContainerName assetsContainerName pullRequestId =
      assetsContainerName ++ "-" ++ Nat.repr pullRequestId := by
  refine ⟨?_, ?_, ?_, rfl⟩
  · have hsuffix : (pullRequestSuffix pullRequestId).length =
        1 + (Nat.repr pullRequestId).length := by
      simp [pullRequestSuffix, String.length_append]
      decide
    have htrim : (trimmedName name pullRequestId).length ≤
        60 - (pullRequestSuffix pullRequestId).length := by
      calc (trimmedName name pullRequestId).length
          ≤ (jsSubstring name (60 - (pullRequestSuffix pullRequestId).length)).length :=
            length_stripTrailing_le _
        _ ≤ 60 - (pullRequestSuffix pullRequestId).length := length_jsSubstring_le _ _
    have : (adjustedName name pullRequestId).length =
        (trimmedName name pullRequestId).length + 1 + (Nat.repr pullRequestId).length := by
      simp [adjustedName, String.length_append]
      decide
    omega
  · exact fun c h => stripTrailing_last_alphanumeric _ c h
  · exact length_jsSubstring_le _ _

/-- Witness for C2, at name "my-next-app--" (13 chars, trailing hyphens) and
change-request id 1234: the trimmed base is "my-next-app", whose last
character is the alphanumeric 'p'. -/
theorem ephemeral_names_witness :
    (adjustedName "my-next-app--" 1234).length ≤ 60 ∧
    isAlphanumeric 'p' = true ∧
    (adjustedStorageAccount "mylongstorageaccountname24chars").length ≤ 24 := by
  have h := ephemeral_names_spec "my-next-app--" "mylongstorageaccountname24chars"
    "assets" 1234 (by decide) (by decide)
  exact ⟨h.1, h.2.1 'p' (by decide), h.2.2.1⟩

/-- Claim C1: the function-package upload is attempted at most 3 times; each
failure before the third attempt is followed by a fixed 5000 ms wait and a
retry; a failure on the third attempt yields the fatal failure outcome; a
success on any attempt yields success with no further attempts; a fourth
attempt never appears.  Stated as a complete characterization of the retry
loop by the outcomes of the first three attempts. -/
theorem upload_retry_policy (w : Nat → Bool) :
    uploadPackage w =
      if w 1 then ([DeployEv.attempt 1], UploadOutcome.success)
      else if w 2 then
        ([DeployEv.attempt 1, DeployEv.wait 5000, DeployEv.attempt 2],
         UploadOutcome.success)
      else if w 3 then
        ([DeployEv.attempt 1, DeployEv.wait 5000, DeployEv.attempt 2,
          DeployEv.wait 5000, DeployEv.attempt 3], UploadOutcome.success)
      else
        ([DeployEv.attempt 1, DeployEv.wait 5000, DeployEv.attempt 2,
          DeployEv.wait 5000, DeployEv.attempt 3],
         UploadOutcome.failure uploadFailureMessage) := by
  have h3 : maxAttempts = 2 + 1 := rfl
  cases h1 : w 1 <;> cases h2 : w 2 <;> cases h3 : w 3 <;>
    simp [uploadPackage, maxAttempts, uploadLoop, h1, h2, h3]

/-! ## Deployment orchestration (run/deploy/configureAppSettings, lines 14-31,
254-400)

Each az-CLI invocation is an external command whose result comes from a
`World`.  The sequential `await`/try-catch structure of deploy becomes a
match chain on those results: a provisioning failure rethrows the underlying
error unchanged (`throw error`), the two asset uploads replace the message
(`throw new Error("Could not upload ...", e)`), and the upload loop is the
retried step above. The first component of the result is the trace of steps
that actually executed, in order. -/

inductive Step where
  | ensureResourceGroup
  | ensureStorageAccount
  | ensureAssetContainer
  | setContainerPublicRead
  | ensureFunctionApp
  | enableRunFromPackage
  | uploadFunctionPackage (events : List DeployEv)
  | uploadAssets
  | uploadPublicAssets
  | applyAppSettings
deriving DecidableEq, Repr

structure World where
  azCli : Except String Unit
  build : Except String Unit
  packagePhase : Except String Unit
  resourceGroup : Except String Unit
  storageAccount : Except String Unit
  assetContainer : Except String Unit
  containerPermission : Except String Unit
  functionApp : Except String Unit
  runFromPackage : Except String Unit
  upload : Nat → Bool
  uploadAssets : Except String Unit
  uploadPublicAssets : Except String Unit
  appSettings : Except String Unit

/-- Line 385: `` `Successfully deployed to https://${name}.azurewebsites.net/` ``. -/
def successMessage (name : String) : String :=
  "Successfully deployed to https://" ++ name ++ ".azurewebsites.net/"

/-- deploy (lines 254-386).  Returns the executed step trace and either the
propagated error or the final success log line. -/
def deploy (w : World) (name : String) : List Step × Except String String :=
  match w.resourceGroup with
  | .error e => ([.ensureResourceGroup], .error e)
  | .ok _ =>
  match w.storageAccount with
  | .error e => ([.ensureResourceGroup, .ensureStorageAccount], .error e)
  | .ok _ =>
  match w.assetContainer with
  | .error e =>
    ([.ensureResourceGroup, .ensureStorageAccount, .ensureAssetContainer], .error e)
  | .ok _ =>
  match w.containerPermission with
  | .error e =>
    ([.ensureResourceGroup, .ensureStorageAccount, .ensureAssetContainer,
      .setContainerPublicRead], .error e)
  | .ok _ =>
  match w.functionApp with
  | .error e =>
    ([.ensureResourceGroup, .ensureStorageAccount, .ensureAssetContainer,
      .setContainerPublicRead, .ensureFunctionApp], .error e)
  | .ok _ =>
  match w.runFromPackage with
  | .error e =>
    ([.ensureResourceGroup, .ensureStorageAccount, .ensureAssetContainer,
      .setContainerPublicRead, .ensureFunctionApp, .enableRunFromPackage], .error e)
  | .ok _ =>
  match (uploadPackage w.upload).2 with
  | .failure msg =>
    ([.ensureResourceGroup, .ensureStorageAccount, .ensureAssetContainer,
      .setContainerPublicRead, .ensureFunctionApp, .enableRunFromPackage,
      .uploadFunctionPackage (uploadPackage w.upload).1], .error msg)
  | .success =>
  match w.uploadAssets with
  | .error _ =>
    ([.ensureResourceGroup, .ensureStorageAccount, .ensureAssetContainer,
      .setContainerPublicRead, .ensureFunctionApp, .enableRunFromPackage,
      .uploadFunctionPackage (uploadPackage w.upload).1, .uploadAssets],
     .error "Could not upload assets to Azure blob storage")
  | .ok _ =>
  match w.uploadPublicAssets with
  | .error _ =>
    ([.ensureResourceGroup, .ensureStorageAccount, .ensureAssetContainer,
      .setContainerPublicRead, .ensureFunctionApp, .enableRunFromPackage,
      .uploadFunctionPackage (uploadPackage w.upload).1, .uploadAssets,
      .uploadPublicAssets],
     .error "Could not upload public assets to Azure blob storage")
  | .ok _ =>
    ([.ensureResourceGroup, .ensureStorageAccount, .ensureAssetContainer,
      .setContainerPublicRead, .ensureFunctionApp, .enableRunFromPackage,
      .uploadFunctionPackage (uploadPackage w.upload).1, .uploadAssets,
      .uploadPublicAssets],
     .ok (successMessage name))

/-- configureAppSettings (lines 388-400): the az call runs only when the
app-settings input is a non-empty (truthy) string. -/
def configureAppSettingsRun (w : World) (appSecretsJSON : String) :
    List Step × Except String Unit :=
  if appSecretsJSON ≠ "" then ([.applyAppSettings], w.appSettings) else ([], .ok ())

/-- run (lines 22-27): deploy, then configureAppSettings. -/
def orchestrate (w : World) (name appSecretsJSON : String) :
    List Step × Except String String :=
  match deploy w name with
  | (t, .error e) => (t, .error e)
  | (t, .ok url) =>
    match configureAppSettingsRun w appSecretsJSON with
    | (t2, .error e) => (t ++ t2, .error e)
    | (t2, .ok _) => (t ++ t2, .ok url)

/-- The full deploy step sequence when nothing fails. -/
def deployCanonical (w : World) : List Step :=
  [.ensureResourceGroup, .ensureStorageAccount, .ensureAssetContainer,
   .setContainerPublicRead, .ensureFunctionApp, .enableRunFromPackage,
   .uploadFunctionPackage (uploadPackage w.upload).1, .uploadAssets,
   .uploadPublicAssets]

def orchestrateCanonical (w : World) : List Step :=
  deployCanonical w ++ [.applyAppSettings]

/-- Lines 310-323: `if (plan)` selects the plan-backed `az functionapp create
--plan` command, otherwise the `--consumption-plan-location` command.  A JS
falsy plan (absent or empty string) selects the consumption command. -/
inductive FunctionAppMode where
  | planBacked (plan : String)
  | consumption (location : String)
deriving DecidableEq, Repr

def functionAppMode : Option String → String → FunctionAppMode
  | some plan, location =>
    if plan ≠ "" then .planBacked plan else .consumption location
  | none, location => .consumption location

/-- Shared shape lemma: the executed deploy trace is always a prefix of the
canonical step sequence, and a successful deploy ran the whole sequence and
reports the endpoint URL. -/
theorem deploy_shape (w : World) (name : String) :
    (∃ rest, (deploy w name).1 ++ rest = deployCanonical w) ∧
    (∀ url, (deploy w name).2 = Except.ok url →
      (deploy w name).1 = deployCanonical w ∧ url = successMessage name) := by
  unfold deploy deployCanonical
  cases hrg : w.resourceGroup with
  | error e => exact ⟨⟨_, rfl⟩, by simp⟩
  | ok _ =>
  cases hsa : w.storageAccount with
  | error e => exact ⟨⟨_, rfl⟩, by simp⟩
  | ok _ =>
  cases hac : w.assetContainer with
  | error e => exact ⟨⟨_, rfl⟩, by simp⟩
  | ok _ =>
  cases hcp : w.containerPermission with
  | error e => exact ⟨⟨_, rfl⟩, by simp⟩
  | ok _ =>
  cases hfa : w.functionApp with
  | error e => exact ⟨⟨_, rfl⟩, by simp⟩
  | ok _ =>
  cases hrfp : w.runFromPackage with
  | error e => exact ⟨⟨_, rfl⟩, by simp⟩
  | ok _ =>
  cases hup : (uploadPackage w.upload).2 with
  | failure msg => exact ⟨⟨_, rfl⟩, by simp⟩
  | success =>
  cases hua : w.uploadAssets with
  | error e => exact ⟨⟨_, rfl⟩, by simp⟩
  | ok _ =>
  cases hpa : w.uploadPublicAssets with
  | error e => exact ⟨⟨_, rfl⟩, by simp⟩
  | ok _ => exact ⟨⟨[], by simp⟩, by simp⟩

/-- Claim C4: the orchestrator executes its steps strictly in the canonical
order (resource group, storage account, asset container, public-read
permission, function app, run-from-package, package upload with retry, asset
upload, public-asset upload, app settings): the executed trace is always a
prefix of that sequence (so no later step runs once an earlier step fails),
a successful run executes the whole sequence, and the function-app step is
plan-backed exactly when a non-empty plan is configured, consumption
otherwise. -/
theorem orchestrate_step_order (w : World) (name appSecretsJSON : String)
    (hs : appSecretsJSON ≠ "") :
    (∃ rest, (orchestrate w name appSecretsJSON).1 ++ rest = orchestrateCanonical w) ∧
    (∀ url, (orchestrate w name appSecretsJSON).2 = Except.ok url →
      (orchestrate w name appSecretsJSON).1 = orchestrateCanonical w) ∧
    (∀ plan location, plan ≠ "" →
      functionAppMode (some plan) location = FunctionAppMode.planBacked plan) ∧
    (∀ location, functionAppMode none location = FunctionAppMode.consumption location) := by
  have hshape := deploy_shape w name
  refine ⟨?_, ?_, fun plan location hp => by simp [functionAppMode, hp],
    fun location => rfl⟩
  · unfold orchestrate orchestrateCanonical
    cases hdep : deploy w name with
    | mk t r =>
      cases r with
      | error e =>
        obtain ⟨rest, hrest⟩ := hshape.1
        rw [hdep] at hrest
        exact ⟨rest ++ [.applyAppSettings], by simp [← hrest]⟩
      | ok url =>
        have hfull := hshape.2 url (by rw [hdep])
        rw [hdep] at hfull
        have ht : t = deployCanonical w := hfull.1
        simp only [configureAppSettingsRun, if_pos hs]
        cases w.appSettings with
        | error e => exact ⟨[], by simp [ht]⟩
        | ok _ => exact ⟨[], by simp [ht]⟩
  · intro url hurl
    unfold orchestrate orchestrateCanonical
    cases hdep : deploy w name with
    | mk t r =>
      cases r with
      | error e =>
        rw [orchestrate, hdep] at hurl
        simp at hurl
      | ok url' =>
        have hfull := hshape.2 url' (by rw [hdep])
        rw [hdep] at hfull
        simp only [configureAppSettingsRun, if_pos hs]
        cases has : w.appSettings with
        | error e =>
          rw [orchestrate, hdep] at hurl
          simp [configureAppSettingsRun, if_pos hs, has] at hurl
        | ok _ =>
          have ht : t = deployCanonical w := hfull.1
          simp [ht]

/-- Witness for C4 at a world in which every external command succeeds. -/
def okWorld : World where
  azCli := .ok ()
  build := .ok ()
  packagePhase := .ok ()
  resourceGroup := .ok ()
  storageAccount := .ok ()
  assetContainer := .ok ()
  containerPermission := .ok ()
  functionApp := .ok ()
  runFromPackage := .ok ()
  upload := fun _ => true
  uploadAssets := .ok ()
  uploadPublicAssets := .ok ()
  appSettings := .ok ()

theorem orchestrate_step_order_witness :
    (∃ rest, (orchestrate okWorld "myapp" "settings").1 ++ rest = orchestrateCanonical okWorld) ∧
    functionAppMode (some "myplan") "westeurope" = FunctionAppMode.planBacked "myplan" ∧
    functionAppMode none "westeurope" = FunctionAppMode.consumption "westeurope" := by
  have h := orchestrate_step_order okWorld "myapp" "settings" (by decide)
  exact ⟨h.1, h.2.2.1 "myplan" "westeurope" (by decide), h.2.2.2 "westeurope"⟩

/-! ## Single-attempt provisioning steps (C6) -/

def provisioningSteps : List Step :=
  [.ensureResourceGroup, .ensureStorageAccount, .ensureAssetContainer,
   .setContainerPublicRead, .ensureFunctionApp, .enableRunFromPackage]

theorem deployCanonical_nodup (w : World) : (deployCanonical w).Nodup := by
  simp [deployCanonical]

/-- Claim C6: every provisioning step other than the package upload is
attempted at most once within a run (and exactly once in a run that reaches
it), and when such a step fails the run aborts at that step with the
underlying error propagated verbatim, not wrapped, and no later step
executed. -/
theorem provisioning_single_attempt (w : World) (name : String) :
    (∀ s ∈ provisioningSteps, ((deploy w name).1.count s) ≤ 1) ∧
    (∀ url, (deploy w name).2 = Except.ok url →
      ∀ s ∈ provisioningSteps, s ∈ (deploy w name).1) ∧
    (∀ e, w.resourceGroup = Except.error e →
      deploy w name = ([Step.ensureResourceGroup], Except.error e)) ∧
    (∀ e, w.resourceGroup = Except.ok () → w.storageAccount = Except.error e →
      deploy w name =
        ([Step.ensureResourceGroup, Step.ensureStorageAccount], Except.error e)) ∧
    (∀ e, w.resourceGroup = Except.ok () → w.storageAccount = Except.ok () →
      w.assetContainer = Except.error e →
      deploy w name =
        ([Step.ensureResourceGroup, Step.ensureStorageAccount,
          Step.ensureAssetContainer], Except.error e)) ∧
    (∀ e, w.resourceGroup = Except.ok () → w.storageAccount = Except.ok () →
      w.assetContainer = Except.ok () → w.containerPermission = Except.error e →
      deploy w name =
        ([Step.ensureResourceGroup, Step.ensureStorageAccount,
          Step.ensureAssetContainer, Step.setContainerPublicRead], Except.error e)) ∧
    (∀ e, w.resourceGroup = Except.ok () → w.storageAccount = Except.ok () →
      w.assetContainer = Except.ok () → w.containerPermission = Except.ok () →
      w.functionApp = Except.error e →
      deploy w name =
        ([Step.ensureResourceGroup, Step.ensureStorageAccount,
          Step.ensureAssetContainer, Step.setContainerPublicRead,
          Step.ensureFunctionApp], Except.error e)) ∧
    (∀ e, w.resourceGroup = Except.ok () → w.storageAccount = Except.ok () →
      w.assetContainer = Except.ok () → w.containerPermission = Except.ok () →
      w.functionApp = Except.ok () → w.runFromPackage = Except.error e →
      deploy w name =
        ([Step.ensureResourceGroup, Step.ensureStorageAccount,
          Step.ensureAssetContainer, Step.setContainerPublicRead,
          Step.ensureFunctionApp, Step.enableRunFromPackage], Except.error e)) := by
  refine ⟨?_, ?_, ?_, ?_, ?_, ?_, ?_, ?_⟩
  · intro s _
    obtain ⟨rest, hrest⟩ := (deploy_shape w name).1
    have hsub : (deploy w name).1.Sublist (deployCanonical w) := by
      rw [← hrest]; exact List.sublist_append_left _ _
    calc ((deploy w name).1.count s) ≤ (deployCanonical w).count s := hsub.count_le s
      _ ≤ 1 := List.nodup_iff_count_le_one.mp (deployCanonical_nodup w) s
  · intro url hurl s hsmem
    have hfull := ((deploy_shape w name).2 url hurl).1
    rw [hfull]
    simp only [provisioningSteps, List.mem_cons, List.not_mem_nil, or_false] at hsmem
    rcases hsmem with h | h | h | h | h | h <;> subst h <;> simp [deployCanonical]
  · intro e h1; simp [deploy, h1]
  · intro e h1 h2; simp [deploy, h1, h2]
  · intro e h1 h2 h3; simp [deploy, h1, h2, h3]
  · intro e h1 h2 h3 h4; simp [deploy, h1, h2, h3, h4]
  · intro e h1 h2 h3 h4 h5; simp [deploy, h1, h2, h3, h4, h5]
  · intro e h1 h2 h3 h4 h5 h6; simp [deploy, h1, h2, h3, h4, h5, h6]

/-- Witness world for C6: the storage-account creation fails with a concrete
error message, everything before it succeeds. -/
def storageFailWorld : World :=
  { okWorld with storageAccount := .error "storage quota exceeded" }

theorem provisioning_single_attempt_witness :
    deploy storageFailWorld "myapp" =
      ([Step.ensureResourceGroup, Step.ensureStorageAccount],
       Except.error "storage quota exceeded") :=
  (provisioning_single_attempt storageFailWorld "myapp").2.2.2.1
    "storage quota exceeded" rfl rfl

/-! ## Teardown (clean, lines 402-426)

Four sequential awaited az commands with no try/catch: delete the function
app, delete the asset container, install the application-insights extension,
delete the app-insights component.  Any rejection propagates immediately. -/

inductive CleanStep where
  | deleteFunctionApp
  | deleteAssetContainer
  | addAppInsightsExtension
  | deleteAppInsights
deriving DecidableEq, Repr

structure CleanWorld where
  deleteFunctionApp : Except String Unit
  deleteAssetContainer : Except String Unit
  addAppInsightsExtension : Except String Unit
  deleteAppInsights : Except String Unit

def clean (w : CleanWorld) : List CleanStep × Except String Unit :=
  match w.deleteFunctionApp with
  | .error e => ([.deleteFunctionApp], .error e)
  | .ok _ =>
  match w.deleteAssetContainer with
  | .error e => ([.deleteFunctionApp, .deleteAssetContainer], .error e)
  | .ok _ =>
  match w.addAppInsightsExtension with
  | .error e =>
    ([.deleteFunctionApp, .deleteAssetContainer, .addAppInsightsExtension], .error e)
  | .ok _ =>
  match w.deleteAppInsights with
  | .error e =>
    ([.deleteFunctionApp, .deleteAssetContainer, .addAppInsightsExtension,
      .deleteAppInsights], .error e)
  | .ok _ =>
    ([.deleteFunctionApp, .deleteAssetContainer, .addAppInsightsExtension,
      .deleteAppInsights], .ok ())

/-- Counterexample to Claim C3: in a teardown where the function-app deletion
fails (and every other deletion would succeed), the run aborts at once with
that error; the asset-container and app-insights deletions are never
attempted, and no aggregation of failures happens. -/
theorem clean_aborts_on_first_failure :
    clean ⟨Except.error "delete failed", Except.ok (), Except.ok (), Except.ok ()⟩ =
      ([CleanStep.deleteFunctionApp], Except.error "delete failed") ∧
    CleanStep.deleteAssetContainer ∉
      (clean ⟨Except.error "delete failed", Except.ok (), Except.ok (), Except.ok ()⟩).1 ∧
    CleanStep.deleteAppInsights ∉
      (clean ⟨Except.error "delete failed", Except.ok (), Except.ok (), Except.ok ()⟩).1 :=
  ⟨rfl, by decide, by decide⟩

/-- Claim C3 as amended: the three teardown deletions run strictly in
sequence (function app, asset container, then — after installing the
app-insights extension — the app-insights component); the first failing
command aborts the teardown immediately with that error, leaving the
remaining deletions unattempted, and failures are not aggregated.  All three
deletions are attempted only when every earlier command succeeds. -/
theorem clean_sequential_spec (w : CleanWorld) :
    (∀ e, w.deleteFunctionApp = Except.error e →
      clean w = ([CleanStep.deleteFunctionApp], Except.error e)) ∧
    (∀ e, w.deleteFunctionApp = Except.ok () → w.deleteAssetContainer = Except.error e →
      clean w = ([CleanStep.deleteFunctionApp, CleanStep.deleteAssetContainer],
        Except.error e)) ∧
    (∀ e, w.deleteFunctionApp = Except.ok () → w.deleteAssetContainer = Except.ok () →
      w.addAppInsightsExtension = Except.error e →
      clean w = ([CleanStep.deleteFunctionApp, CleanStep.deleteAssetContainer,
        CleanStep.addAppInsightsExtension], Except.error e)) ∧
    (∀ e, w.deleteFunctionApp = Except.ok () → w.deleteAssetContainer = Except.ok () →
      w.addAppInsightsExtension = Except.ok () → w.deleteAppInsights = Except.error e →
      clean w = ([CleanStep.deleteFunctionApp, CleanStep.deleteAssetContainer,
        CleanStep.addAppInsightsExtension, CleanStep.deleteAppInsights], Except.error e)) ∧
    (w.deleteFunctionApp = Except.ok () → w.deleteAssetContainer = Except.ok () →
      w.addAppInsightsExtension = Except.ok () → w.deleteAppInsights = Except.ok () →
      clean w = ([CleanStep.deleteFunctionApp, CleanStep.deleteAssetContainer,
        CleanStep.addAppInsightsExtension, CleanStep.deleteAppInsights], Except.ok ())) := by
  refine ⟨?_, ?_, ?_, ?_, ?_⟩
  · intro e h1; simp [clean, h1]
  · intro e h1 h2; simp [clean, h1, h2]
  · intro e h1 h2 h3; simp [clean, h1, h2, h3]
  · intro e h1 h2 h3 h4; simp [clean, h1, h2, h3, h4]
  · intro h1 h2 h3 h4; simp [clean, h1, h2, h3, h4]

theorem clean_sequential_witness :
    clean ⟨Except.ok (), Except.ok (), Except.ok (), Except.ok ()⟩ =
      ([CleanStep.deleteFunctionApp, CleanStep.deleteAssetContainer,
        CleanStep.addAppInsightsExtension, CleanStep.deleteAppInsights],
       Except.ok ()) :=
  (clean_sequential_spec _).2.2.2.2 rfl rfl rfl rfl

/-! ## Page classification and handler synthesis (package, lines 161-186)

A page of the scanned build output carries the flags `isStatic` and
`isSpecial`; only pages with both flags false receive the handler wrapper
(index.js) and the function-binding descriptor (function.json). -/

structure Page where
  route : String
  isStatic : Bool
  isSpecial : Bool
deriving DecidableEq, Repr

/-- Line 163-165: `buildOutput.pages.filter(p => !p.isStatic && !p.isSpecial)`. -/
def ssrPages (pages : List Page) : List Page :=
  pages.filter (fun p => !p.isStatic && !p.isSpecial)

inductive PackageArtifact where
  | handlerWrapper (route : String)
  | functionBinding (route : String)
deriving DecidableEq, Repr

/-- Lines 166-186: each filtered page gets an index.js handler wrapper and a
function.json binding descriptor. -/
def handlerArtifacts (pages : List Page) : List PackageArtifact :=
  (ssrPages pages).flatMap
    (fun p => [.handlerWrapper p.route, .functionBinding p.route])

/-- Claim C5: a page marked special never receives handler artifacts; the
pages that get a handler wrapper and function-binding descriptor are exactly
those that are neither static nor special, and every emitted handler
artifact stems from such a page. -/
theorem special_pages_never_handled (pages : List Page) :
    (∀ p, p ∈ ssrPages pages ↔
      p ∈ pages ∧ p.isStatic = false ∧ p.isSpecial = false) ∧
    (∀ p ∈ pages, p.isSpecial = true → p ∉ ssrPages pages) ∧
    (∀ r, (PackageArtifact.handlerWrapper r ∈ handlerArtifacts pages ∨
           PackageArtifact.functionBinding r ∈ handlerArtifacts pages) →
      ∃ p, p ∈ pages ∧ p.route = r ∧ p.isStatic = false ∧ p.isSpecial = false) := by
  have hmem : ∀ p, p ∈ ssrPages pages ↔
      p ∈ pages ∧ p.isStatic = false ∧ p.isSpecial = false := by
    intro p
    simp [ssrPages, List.mem_filter, Bool.and_eq_true]
  refine ⟨hmem, ?_, ?_⟩
  · intro p _ hspecial hcon
    have := (hmem p).mp hcon
    simp [hspecial] at this
  · intro r hr
    have hget : ∃ p, p ∈ ssrPages pages ∧ p.route = r := by
      rcases hr with h | h <;>
        simp only [handlerArtifacts, List.mem_flatMap, List.mem_cons,
          List.not_mem_nil, or_false] at h
      · obtain ⟨p, hp, h2 | h2⟩ := h
        · injection h2 with h3
          exact ⟨p, hp, h3.symm⟩
        · simp at h2
      · obtain ⟨p, hp, h2 | h2⟩ := h
        · simp at h2
        · injection h2 with h3
          exact ⟨p, hp, h3.symm⟩
    obtain ⟨p, hp, hroute⟩ := hget
    obtain ⟨hpp, hst, hsp⟩ := (hmem p).mp hp
    exact ⟨p, hpp, hroute, hst, hsp⟩

theorem special_pages_never_handled_witness :
    PackageArtifact.handlerWrapper "blog-slug" ∈
      handlerArtifacts [⟨"blog-slug", false, false⟩, ⟨"app-shell", false, true⟩] ∧
    (∃ p, p ∈ [(⟨"blog-slug", false, false⟩ : Page), ⟨"app-shell", false, true⟩] ∧
      p.route = "blog-slug" ∧ p.isStatic = false ∧ p.isSpecial = false) :=
  ⟨by decide,
   (special_pages_never_handled _).2.2 "blog-slug" (Or.inl (by decide))⟩

/-! ## Package manifest (package lines 218-248, deploy line 340) -/

def joinPath (a b : String) : String := a ++ "/" ++ b

/-- Line 219: `const packageFilename = "package.zip"`. -/
def packageFilename : String := "package.zip"

/-- Lines 221-240: the archive is written to buildOutputPath/packageFilename. -/
def packageArchivePath (buildOutputPath : String) : String :=
  joinPath buildOutputPath packageFilename

/-- Lines 242-248: the manifest write — file packagename.txt, content
packageFilename. -/
def packageManifestWrite (buildOutputPath : String) : String × String :=
  (joinPath buildOutputPath "packagename.txt", packageFilename)

/-- Line 340 of deploy: `const packagePath = join(buildOutputPath,
"package.zip")` — the orchestrator re-derives the archive name itself. -/
def deployPackagePath (buildOutputPath : String) : String :=
  joinPath buildOutputPath "package.zip"

/-- Modelled from the spec: "Writes a manifest file naming the archive, so
the orchestrator can locate it without re-deriving the name."  An
orchestrator that locates the archive via the manifest resolves the path
from the manifest's content.  No such lookup exists in src/. -/
def manifestDirectedPath (buildOutputPath manifestContent : String) : String :=
  joinPath buildOutputPath manifestContent

/-- Counterexample to Claim C7: the orchestrator does not locate the archive
via the manifest.  Its path is hard-coded: for the manifest content
"other.zip" the manifest-directed location differs from the path deploy
actually uses, because deploy's path is independent of the manifest. -/
theorem deploy_ignores_manifest :
    deployPackagePath "build" ≠ manifestDirectedPath "build" "other.zip" ∧
    deployPackagePath "build" = "build/package.zip" :=
  ⟨by decide, rfl⟩

/-- Claim C7 as amended: packaging writes a single-line manifest file
(packagename.txt) whose content is the archive file name package.zip, but
the deployment orchestrator never reads it — it independently hard-codes the
same constant archive name, so the path it uses happens to coincide with the
manifest-directed path at the manifest's actual content. -/
theorem package_manifest_spec (buildOutputPath : String) :
    (packageManifestWrite buildOutputPath).2 = packageFilename ∧
    '\n' ∉ packageFilename.data ∧
    deployPackagePath buildOutputPath = packageArchivePath buildOutputPath ∧
    deployPackagePath buildOutputPath =
      manifestDirectedPath buildOutputPath (packageManifestWrite buildOutputPath).2 :=
  ⟨rfl, by decide, rfl, rfl⟩

/-! ## Application settings (configureAppSettings, lines 388-400) -/

/-- Lines 392-395: `Object.keys(appSettings).reduce((settings, key) =>
`` `${settings}${key}=${appSettings[key]} ` ``, "")`.  The JSON object is
modelled as an association list in key order. -/
def formatAppSettings (appSettings : List (String × String)) : String :=
  appSettings.foldl (fun settings kv => settings ++ kv.1 ++ "=" ++ kv.2 ++ " ") ""

/-- Modelled from the spec: the mapping is "applied verbatim as environment
configuration on the compute app".  The formatted string is interpolated
into `az functionapp config appsettings set --settings ...` and executed
through a shell (line 396-398), so the external command receives it as
whitespace-separated tokens; az interprets each token as one key=value
setting, split at the first '='.  This decoder models that external
interpretation; it is not part of src/. -/
def splitTokensAux (acc : List Char) : List Char → List (List Char)
  | [] => if acc = [] then [] else [acc.reverse]
  | c :: cs =>
    if c = ' ' then
      if acc = [] then splitTokensAux [] cs
      else acc.reverse :: splitTokensAux [] cs
    else splitTokensAux (c :: acc) cs

def splitTokens (s : List Char) : List (List Char) := splitTokensAux [] s

def splitKeyValue : List Char → List Char × List Char
  | [] => ([], [])
  | c :: cs =>
    if c = '=' then ([], cs)
    else
      let r := splitKeyValue cs
      (c :: r.1, r.2)

def appliedSettings (s : String) : List (String × String) :=
  (splitTokens s.data).map (fun tok =>
    (String.mk (splitKeyValue tok).1, String.mk (splitKeyValue tok).2))

/-- Counterexample to Claim C8: for the input mapping KEY ↦ "a b" (a value
containing a space), the settings the external command applies are
KEY ↦ "a" plus a spurious setting "b" ↦ "", not the input mapping. -/
theorem app_settings_not_verbatim :
    appliedSettings (formatAppSettings [("KEY", "a b")]) = [("KEY", "a"), ("b", "")] ∧
    appliedSettings (formatAppSettings [("KEY", "a b")]) ≠ [("KEY", "a b")] := by
  constructor
  · rfl
  · decide

/-- The character-level image of the settings string built by
formatAppSettings. -/
def encodeSettings (m : List (String × String)) : List Char :=
  m.flatMap (fun kv => kv.1.data ++ '=' :: (kv.2.data ++ [' ']))

theorem formatAppSettings_data (m : List (String × String)) :
    ∀ init : String,
      (m.foldl (fun settings kv => settings ++ kv.1 ++ "=" ++ kv.2 ++ " ") init).data =
        init.data ++ encodeSettings m := by
  induction m with
  | nil => intro init; simp [encodeSettings]
  | cons kv m ih =>
    intro init
    simp only [List.foldl_cons, ih, encodeSettings, List.flatMap_cons]
    simp [String.data_append]

theorem splitTokensAux_word (w : List Char) (hw : ∀ c ∈ w, c ≠ ' ') :
    ∀ acc rest, splitTokensAux acc (w ++ ' ' :: rest) =
      (if acc.reverse ++ w = [] then splitTokens rest
       else (acc.reverse ++ w) :: splitTokens rest) := by
  induction w with
  | nil =>
    intro acc rest
    by_cases hacc : acc = [] <;> simp [splitTokensAux, splitTokens, hacc]
  | cons c w ih =>
    intro acc rest
    have hc : c ≠ ' ' := hw c (by simp)
    have hw' : ∀ x ∈ w, x ≠ ' ' := fun x hx => hw x (by simp [hx])
    have hne : acc.reverse ++ c :: w ≠ [] := by simp
    have hne' : (c :: acc).reverse ++ w ≠ [] := by simp
    have hstep : splitTokensAux acc (c :: (w ++ ' ' :: rest)) =
        splitTokensAux (c :: acc) (w ++ ' ' :: rest) := by
      simp [splitTokensAux, hc]
    show splitTokensAux acc (c :: (w ++ ' ' :: rest)) =
      if acc.reverse ++ c :: w = [] then splitTokens rest
      else (acc.reverse ++ c :: w) :: splitTokens rest
    rw [hstep, ih hw' (c :: acc) rest, if_neg hne', if_neg hne]
    congr 1
    simp

theorem splitKeyValue_append (k v : List Char) (hk : '=' ∉ k) :
    splitKeyValue (k ++ '=' :: v) = (k, v) := by
  induction k with
  | nil => simp [splitKeyValue]
  | cons c k ih =>
    simp only [List.mem_cons, not_or] at hk
    have hc : c ≠ '=' := fun h => hk.1 h.symm
    simp [splitKeyValue, hc, ih hk.2]

theorem splitTokens_encode (m : List (String × String))
    (h : ∀ kv ∈ m, ' ' ∉ kv.1.data ∧ ' ' ∉ kv.2.data) :
    splitTokens (encodeSettings m) =
      m.map (fun kv => kv.1.data ++ '=' :: kv.2.data) := by
  induction m with
  | nil => rfl
  | cons kv m ih =>
    have hk := (h kv (by simp)).1
    have hv := (h kv (by simp)).2
    have hrest : ∀ x ∈ m, ' ' ∉ x.1.data ∧ ' ' ∉ x.2.data :=
      fun x hx => h x (by simp [hx])
    have hshape : encodeSettings (kv :: m) =
        (kv.1.data ++ '=' :: kv.2.data) ++ ' ' :: encodeSettings m := by
      simp [encodeSettings]
    have hw : ∀ c ∈ kv.1.data ++ '=' :: kv.2.data, c ≠ ' ' := by
      intro c hcmem
      simp only [List.mem_append, List.mem_cons] at hcmem
      rcases hcmem with hcase | hcase | hcase
      · exact fun hcontra => hk (hcontra ▸ hcase)
      · subst hcase; decide
      · exact fun hcontra => hv (hcontra ▸ hcase)
    have hne : kv.1.data ++ '=' :: kv.2.data ≠ [] := by simp
    rw [List.map_cons, ← ih hrest]
    unfold splitTokens
    rw [hshape, splitTokensAux_word _ hw [] (encodeSettings m)]
    simp [hne, splitTokens]

/-- Claim C8 as amended: every key/value pair of the mapping is applied
verbatim provided the keys contain no space and no '=' and the values
contain no space; under those conditions the settings the external command
applies equal the input mapping exactly.  (A value containing a space is
split into separate tokens — see the counterexample.) -/
theorem app_settings_roundtrip (m : List (String × String))
    (h : ∀ kv ∈ m, ' ' ∉ kv.1.data ∧ '=' ∉ kv.1.data ∧ ' ' ∉ kv.2.data) :
    appliedSettings (formatAppSettings m) = m := by
  unfold appliedSettings formatAppSettings
  rw [formatAppSettings_data m ""]
  have hsp : ∀ kv ∈ m, ' ' ∉ kv.1.data ∧ ' ' ∉ kv.2.data :=
    fun kv hkv => ⟨(h kv hkv).1, (h kv hkv).2.2⟩
  have : ("" : String).data = [] := rfl
  rw [this, List.nil_append, splitTokens_encode m hsp, List.map_map]
  have hpt : ∀ kv ∈ m,
      ((fun tok => (String.mk (splitKeyValue tok).1, String.mk (splitKeyValue tok).2)) ∘
        (fun kv => kv.1.data ++ '=' :: kv.2.data)) kv = kv := by
    intro kv hkv
    simp only [Function.comp_apply]
    rw [splitKeyValue_append kv.1.data kv.2.data (h kv hkv).2.1]
  calc m.map _ = m.map id := List.map_congr_left hpt
    _ = m := List.map_id m

theorem app_settings_roundtrip_witness :
    appliedSettings
        (formatAppSettings [("COSMOS_ENDPOINT", "https://db.example.net"), ("KEY", "v1")]) =
      [("COSMOS_ENDPOINT", "https://db.example.net"), ("KEY", "v1")] :=
  app_settings_roundtrip
    [("COSMOS_ENDPOINT", "https://db.example.net"), ("KEY", "v1")] (by decide)

/-! ## Process-level exit contract (run, lines 14-31)

run wraps the whole pipeline in try/catch and reports any error through
`core.setFailed(error.message)` (a failed, non-zero outcome); a successful
deploy ends with the endpoint-URL log line. -/

inductive RunOutcome where
  | failed (message : String)
  | succeeded (message : String)
deriving DecidableEq, Repr

/-- The non-teardown branch of run (lines 22-27): check the CLI, build,
package, deploy, configure app settings; the catch on lines 28-30 turns the
first error into a failed outcome carrying its message. -/
def runPipeline (w : World) (name appSecretsJSON : String) : RunOutcome :=
  match w.azCli with
  | .error e => .failed e
  | .ok _ =>
  match w.build with
  | .error e => .failed e
  | .ok _ =>
  match w.packagePhase with
  | .error e => .failed e
  | .ok _ =>
  match (orchestrate w name appSecretsJSON).2 with
  | .error e => .failed e
  | .ok url => .succeeded url

theorem orchestrate_ok_url (w : World) (name appSecretsJSON url : String)
    (h : (orchestrate w name appSecretsJSON).2 = Except.ok url) :
    url = successMessage name := by
  unfold orchestrate at h
  cases hdep : deploy w name with
  | mk t r =>
    cases r with
    | error e => rw [hdep] at h; simp at h
    | ok url' =>
      have := ((deploy_shape w name).2 url' (by rw [hdep])).2
      rw [hdep] at h
      cases hconf : configureAppSettingsRun w appSecretsJSON with
      | mk t2 r2 =>
        cases r2 with
        | error e => rw [hconf] at h; simp at h
        | ok _ =>
          rw [hconf] at h
          simp only at h
          cases h
          exact this

/-- Claim C9: any unrecovered error in the CLI check, build, packaging or
orchestration phase makes the run terminate with a failed outcome carrying
that error's message, and a fully successful run terminates with the
deployed endpoint URL https://name.azurewebsites.net/ reported. -/
theorem run_exit_contract (w : World) (name appSecretsJSON : String) :
    (∀ e, w.azCli = Except.error e →
      runPipeline w name appSecretsJSON = RunOutcome.failed e) ∧
    (∀ e, w.azCli = Except.ok () → w.build = Except.error e →
      runPipeline w name appSecretsJSON = RunOutcome.failed e) ∧
    (∀ e, w.azCli = Except.ok () → w.build = Except.ok () →
      w.packagePhase = Except.error e →
      runPipeline w name appSecretsJSON = RunOutcome.failed e) ∧
    (∀ e, w.azCli = Except.ok () → w.build = Except.ok () →
      w.packagePhase = Except.ok () →
      (orchestrate w name appSecretsJSON).2 = Except.error e →
      runPipeline w name appSecretsJSON = RunOutcome.failed e) ∧
    (∀ url, w.azCli = Except.ok () → w.build = Except.ok () →
      w.packagePhase = Except.ok () →
      (orchestrate w name appSecretsJSON).2 = Except.ok url →
      runPipeline w name appSecretsJSON = RunOutcome.succeeded url ∧
        url = "Successfully deployed to https://" ++ name ++ ".azurewebsites.net/") := by
  refine ⟨?_, ?_, ?_, ?_, ?_⟩
  · intro e h1; simp [runPipeline, h1]
  · intro e h1 h2; simp [runPipeline, h1, h2]
  · intro e h1 h2 h3; simp [runPipeline, h1, h2, h3]
  · intro e h1 h2 h3 h4; simp [runPipeline, h1, h2, h3, h4]
  · intro url h1 h2 h3 h4
    refine ⟨by simp [runPipeline, h1, h2, h3, h4], ?_⟩
    exact orchestrate_ok_url w name appSecretsJSON url h4

theorem run_exit_contract_witness :
    runPipeline okWorld "myapp" "settings" =
      RunOutcome.succeeded
        "Successfully deployed to https://myapp.azurewebsites.net/" := by
  have h := (run_exit_contract okWorld "myapp" "settings").2.2.2.2
    (successMessage "myapp") rfl rfl rfl rfl
  rw [h.1]
  rfl

/-! ## The pull-request event check (loadConfig lines 50-61, and
getIsPullRequest lines 469-481 of the revised source)

The thrown error interpolates the bare identifier `eventName` into its
template, but no binding of that name is in scope inside loadConfig (the
value lives in `config.eventName`); evaluating the template therefore
throws a ReferenceError before the intended Error is ever constructed. -/

inductive JsError where
  | referenceError (message : String)
  | error (message : String)
deriving DecidableEq, Repr

def JsError.message : JsError → String
  | .referenceError m => m
  | .error m => m

/-- The identifiers in scope at line 55 of src/unnamed/part_001: the
module-level require bindings (lines 1-12), the module's function
declarations, and loadConfig's own const bindings (lines 34-42).  No
binding is named eventName. -/
def loadConfigScope : List String :=
  ["core", "github", "promisify", "exec", "fse", "join", "archiver",
   "execAsyncInternal", "NextBuild", "proxiesJson", "handler", "functionJson",
   "hostJson", "run", "loadConfig", "checkAzureCliIsAvailable", "build",
   "package", "deploy", "configureAppSettings", "clean",
   "configJSON", "pullRequestJSON", "appSecretsJSON", "config"]

/-- JavaScript template-literal interpolation of an identifier: reading an
identifier that is not bound in any enclosing scope throws
ReferenceError: name is not defined. -/
def evalTemplateIdent (scope : List String) (env : String → String)
    (ident : String) : Except JsError String :=
  if ident ∈ scope then .ok (env ident)
  else .error (.referenceError (ident ++ " is not defined"))

/-- Lines 50-61: when pull-request mode is requested and the triggering
event is not pull_request, the code evaluates the error-message template
(which reads the bare identifier eventName) and throws. -/
def checkPullRequestEvent (env : String → String) (isPullRequest : Bool)
    (eventName : String) : Except JsError Unit :=
  if isPullRequest then
    if eventName ≠ "pull_request" then
      match evalTemplateIdent loadConfigScope env "eventName" with
      | .error e => .error e
      | .ok v =>
        .error (.error
          ("Unable to run in pull request mode when event is not \x27pull_request\x27. Actual event: "
            ++ v))
    else .ok ()
  else .ok ()

/-- The catch in run (lines 28-30) reports `error.message` through
core.setFailed; this projects the event-check result to the reported
failure message, if any. -/
def prCheckFailure (env : String → String) (isPullRequest : Bool)
    (eventName : String) : Option String :=
  match checkPullRequestEvent env isPullRequest eventName with
  | .error e => some e.message
  | .ok _ => none

/-- Claim C10: when the pull-request input is true but the triggering event
is not pull_request, the run still fails, but with a ReferenceError caused
by the unbound identifier eventName inside the message template
("eventName is not defined"), never with the intended message reporting the
actual event name. -/
theorem pull_request_event_reference_error (env : String → String)
    (eventName : String) (h : eventName ≠ "pull_request") :
    checkPullRequestEvent env true eventName =
      Except.error (JsError.referenceError "eventName is not defined") ∧
    (∀ m, checkPullRequestEvent env true eventName ≠
      Except.error (JsError.error m)) ∧
    prCheckFailure env true eventName = some "eventName is not defined" := by
  have hscope : "eventName" ∉ loadConfigScope := by decide
  have hcheck : checkPullRequestEvent env true eventName =
      Except.error (JsError.referenceError "eventName is not defined") := by
    simp [checkPullRequestEvent, evalTemplateIdent, hscope, h]
  refine ⟨hcheck, ?_, ?_⟩
  · intro m hcon
    rw [hcheck] at hcon
    simp at hcon
  · simp [prCheckFailure, hcheck, JsError.message]

theorem pull_request_event_reference_error_witness :
    checkPullRequestEvent (fun _ => "") true "push" =
      Except.error (JsError.referenceError "eventName is not defined") ∧
    prCheckFailure (fun _ => "") true "push" = some "eventName is not defined" := by
  have h := pull_request_event_reference_error (fun _ => "") "push" (by decide)
  exact ⟨h.1, h.2.2⟩

end PublishNext
